import Mathlib

/-!
Shallow embedding of `packages/fetch-engine/src/getLatestTag.ts`: the commit
resolution and bounded-concurrency asset-verification pipeline.

The network transport is a parameter `transport : String → Except TransportError
JsResponse` standing for `fetch` with method HEAD: `Except.error` models a thrown
transport exception (caught by `urlExists`), `Except.ok` a received response,
reduced to the two pieces of data the code reads (status code and header list).
The upstream commit list (fetched from the GitHub API, outside the core) is a
parameter `commits : List String`.  JavaScript `undefined` flowing out of the
fall-through of `getFirstExistingCommit` is modelled as `Option.none`, and its
template-literal coercion to the string "undefined" as `jsString`.
-/

/-- Errors a `fetch` call can throw; the spec names DNS failure, connection
refusal and timeout, and any other exception is `thrown`. -/
inductive TransportError where
  | dnsFailure
  | connectionRefused
  | timeout
  | thrown (message : String)
deriving DecidableEq

/-- A received HTTP response, reduced to the fields `urlExists` reads:
`res.status` and `res.headers.entries()`. -/
structure JsResponse where
  status : Nat
  headers : List (String × String)
deriving DecidableEq

/-- `fromEntries` (lines 107-115): folds an entry list into a string-keyed
record; assignment in iteration order, so a later entry overwrites an earlier
one with the same key.  A key absent from the record reads as `none`
(JavaScript `undefined`). -/
def fromEntries (entries : List (String × String)) : String → Option String :=
  entries.foldl (fun result e => fun key => if key = e.1 then some e.2 else result key)
    (fun _ => none)

/-- Whitespace skipped by JavaScript `parseInt` (the common ASCII members of
the StrWhiteSpaceChar production). -/
def isJsWhitespace (c : Char) : Bool :=
  c = ' ' || c = '\t' || c = '\n' || c = '\r' || c = '\x0b' || c = '\x0c'

/-- Numeric value of a character as a radix digit; 99 for a non-digit, so that
`digitVal c < base` decides digit-hood for any base up to 36. -/
def digitVal (c : Char) : Nat :=
  if '0' ≤ c && c ≤ '9' then c.toNat - '0'.toNat
  else if 'a' ≤ c && c ≤ 'z' then c.toNat - 'a'.toNat + 10
  else if 'A' ≤ c && c ≤ 'Z' then c.toNat - 'A'.toNat + 10
  else 99

/-- Longest digit prefix in the given base, as a number; `none` (NaN) when the
prefix is empty. -/
def parseDigitsRadix (base : Nat) (cs : List Char) : Option Nat :=
  let ds := cs.takeWhile (fun c => digitVal c < base)
  if ds.isEmpty then none
  else some (ds.foldl (fun acc c => acc * base + digitVal c) 0)

/-- Unsigned part of `parseInt` with no radix argument: a `0x`/`0X` prefix
selects base 16, otherwise base 10. -/
def parseUnsignedRadix (cs : List Char) : Option Nat :=
  match cs with
  | '0' :: c :: rest =>
    if c = 'x' || c = 'X' then parseDigitsRadix 16 rest
    else parseDigitsRadix 10 ('0' :: c :: rest)
  | _ => parseDigitsRadix 10 cs

/-- JavaScript `parseInt(s)` on a character list: skip whitespace, optional
sign, then the longest digit prefix; `none` models NaN. -/
def jsParseIntList (cs : List Char) : Option Int :=
  match cs.dropWhile isJsWhitespace with
  | '+' :: rest => (parseUnsignedRadix rest).map (fun n => (n : Int))
  | '-' :: rest => (parseUnsignedRadix rest).map (fun n => -(n : Int))
  | rest => (parseUnsignedRadix rest).map (fun n => (n : Int))

/-- `parseInt(headers[...])` where the header may be absent: `parseInt(undefined)`
is NaN (the string "undefined" has no digit prefix), so `none` maps to `none`. -/
def jsParseInt : Option String → Option Int
  | none => none
  | some s => jsParseIntList s.data

/-- JavaScript truthiness of `n > 0` when `n` may be NaN: `NaN > 0` is false. -/
def jsGtZero : Option Int → Bool
  | none => false
  | some n => decide (0 < n)

/-- The response half of `urlExists` (lines 93-99): build the header record,
and if `parseInt(headers[content-length]) > 0` return `status < 300`, else fall
through to `false`.  (The `res.status > 200` branch only logs.) -/
def urlExistsResponse (res : JsResponse) : Bool :=
  let headers := fromEntries res.headers
  if jsGtZero (jsParseInt (headers "content-length")) then decide (res.status < 300)
  else false

/-- `urlExists` (lines 86-105): the whole body sits in a `try`; a thrown
transport error is caught (logged) and the function returns `false`. -/
def urlExists (transport : String → Except TransportError JsResponse) (url : String) : Bool :=
  match transport url with
  | Except.ok res => urlExistsResponse res
  | Except.error _ => false

/-- Modelled from the spec: `getDownloadUrl` lives in
`packages/fetch-engine/src/util.ts`, which is not under src/.  Section 6 gives
the URL shape `<host>/<repo>/<branch>/<commit>/<platform>/<binary>.<extension>`,
reproduced verbatim by the builder; the extension strings at the call sites in
src/ carry their leading dot, so the builder appends `binary` then `extension`.
The host/repo prefix is a fixed constant of the distribution host. -/
def getDownloadUrl (branch commit platform binary extension : String) : String :=
  "https://prisma-builds.s3-eu-west-1.amazonaws.com/prisma-engines" ++ "/" ++ branch
    ++ "/" ++ commit ++ "/" ++ platform ++ "/" ++ binary ++ extension

/-- Modelled from the spec: the call in `getFirstExistingCommit` omits the
optional extension argument of `getDownloadUrl`; the spec (glossary) calls this
probe target the reference artifact, an always-produced combination, whose
artifact file itself carries the archive suffix among the extension set. -/
def referenceExtension : String := ".gz"

/-- `getFirstExistingCommit` (lines 75-84): walk the candidate list in order,
probe each candidate's reference artifact, return the first success.  The JS
loop falls through with no return statement when every probe fails; the
resulting `undefined` is modelled as `none`. -/
def getFirstExistingCommit (transport : String → Except TransportError JsResponse) :
    List String → Option String
  | [] => none
  | commit :: rest =>
    if urlExists transport (getDownloadUrl "master" commit "darwin" "query-engine" referenceExtension)
    then some commit
    else getFirstExistingCommit transport rest

/-- Instrumentation of the same loop as `getFirstExistingCommit`: the sequence
of candidates whose reference artifact the scan actually probes, in probe
order. -/
def scanProbed (transport : String → Except TransportError JsResponse) :
    List String → List String
  | [] => []
  | commit :: rest =>
    if urlExists transport (getDownloadUrl "master" commit "darwin" "query-engine" referenceExtension)
    then [commit]
    else commit :: scanProbed transport rest

/-- Template-literal coercion of a possibly-`undefined` string. -/
def jsString : Option String → String
  | some s => s
  | none => "undefined"

/-- The excluded platform list (lines 16-22). -/
def excludedPlatforms : List String :=
  ["freebsd", "arm", "linux-nixos", "openbsd", "netbsd"]

/-- The engine (binary name) list of the middle loop (lines 27-32). -/
def engines : List String :=
  ["query-engine", "introspection-engine", "migration-engine", "prisma-fmt"]

/-- The extension list of the inner loop (lines 33-39). -/
def extensions : List String :=
  [".gz", ".gz.sha256", ".gz.sig", ".sig", ".sha256"]

/-- `relevantPlatforms` (lines 23-25): the supplied platform enumeration (an
external configuration constant, imported from another package) minus the
exclusion set. -/
def relevantPlatforms (platforms : List String) : List String :=
  platforms.filter (fun p => !excludedPlatforms.contains p)

/-- The task set of the verification phase: the triple nested loop of lines
26-55 enumerates (platform, engine, extension) with platform outermost and
extension innermost. -/
def taskTuples (platforms : List String) : List (String × String × String) :=
  (relevantPlatforms platforms).flatMap (fun platform =>
    engines.flatMap (fun engine =>
      extensions.map (fun extension => (platform, engine, extension))))

/-- The download URL built for each task (lines 40-46), in dispatch order. -/
def taskUrls (platforms : List String) (commit : String) : List String :=
  (taskTuples platforms).map (fun t => getDownloadUrl "master" commit t.1 t.2.1 t.2.2)

/-- The outcome objects `{downloadUrl, exists}` the queued closures resolve to
(lines 47-52), one per task, collected in dispatch order (`Promise.all`). -/
def verificationOutcomes (platforms : List String)
    (transport : String → Except TransportError JsResponse) (commit : String) :
    List (String × Bool) :=
  (taskUrls platforms commit).map (fun downloadUrl => (downloadUrl, urlExists transport downloadUrl))

/-- The URLs of the outcomes whose `exists` flag is false (line 63 plus the
`map` on line 67), in outcome order. -/
def missingUrls (exist : List (String × Bool)) : List String :=
  (exist.filter (fun e => !e.2)).map (fun m => m.1)

/-- The message of the error thrown on line 65-69. -/
def missingAssetsMessage (urls : List String) : String :=
  "Could not get new tag, as some assets don\x27t exist: " ++ String.intercalate ", " urls

/-- `getLatestTag` (lines 7-73), parametrised by the externally fetched commit
list, the platform enumeration and the transport: resolve a commit with
`getFirstExistingCommit`, build and probe the full task set, then either throw
the missing-assets error or return the commit.  `Except.error` models the
`throw`; the success value keeps the possibly-`undefined` commit. -/
def getLatestTag (platforms : List String)
    (transport : String → Except TransportError JsResponse) (commits : List String) :
    Except String (Option String) :=
  let commit := getFirstExistingCommit transport commits
  let exist := verificationOutcomes platforms transport (jsString commit)
  let missing := exist.filter (fun e => !e.2)
  if missing.length > 0 then
    Except.error (missingAssetsMessage (missing.map (fun m => m.1)))
  else
    Except.ok commit

/-- Outcome of the task at a given dispatch index: each queued closure closes
over its own `downloadUrl`, so the value written into a slot depends only on
the slot's index, not on when the scheduler runs it. -/
def slotOutcome (tasks : List String)
    (transport : String → Except TransportError JsResponse) (i : Nat) : String × Bool :=
  (tasks.getD i "", urlExists transport (tasks.getD i ""))

/-- Run the queued tasks in an arbitrary completion order `sched`, each task
writing its outcome into its own dispatch slot. -/
def fillSlots (f : Nat → String × Bool) : List Nat → (Nat → Option (String × Bool)) →
    Nat → Option (String × Bool)
  | [], slots => slots
  | i :: rest, slots => fillSlots f rest (fun j => if j = i then some (f i) else slots j)

/-- `Promise.all` over the queued probes: tasks complete in scheduler order
`sched`, but the awaited array reads the slots back in dispatch index order. -/
def promiseAll (tasks : List String)
    (transport : String → Except TransportError JsResponse) (sched : List Nat) :
    List (String × Bool) :=
  let slots := fillSlots (slotOutcome tasks transport) sched (fun _ => none)
  (List.range tasks.length).map (fun i => (slots i).getD ("", false))

/-- A valid argument tuple for the URL builder: branch, commit and platform are
path segments and so carry no slash (commits are hex hashes, platform names
come from the platform enumeration), and binary and extension come from the
enumerations hard-coded in the verification loop. -/
abbrev validTuple (branch commit platform binary extension : String) : Prop :=
  '/' ∉ branch.data ∧ '/' ∉ commit.data ∧ '/' ∉ platform.data ∧
    binary ∈ engines ∧ extension ∈ extensions

/-- A sample transport for exercising the theorems on concrete inputs: only
the reference artifact of commit `c2` exists (a 200 response carrying one
byte); every other URL fails at the transport level. -/
def exampleTransport : String → Except TransportError JsResponse :=
  fun u =>
    if u = getDownloadUrl "master" "c2" "darwin" "query-engine" referenceExtension then
      Except.ok ⟨200, [("content-length", "1")]⟩
    else
      Except.error TransportError.dnsFailure

/-! Helper lemmas shared by the claim theorems. -/

/-- Splitting a slash-separated character list: when neither left part contains
the separator, the parts on both sides of the first separator agree. -/
theorem append_sep_inj {a c b d : List Char} (ha : '/' ∉ a) (hc : '/' ∉ c)
    (h : a ++ '/' :: b = c ++ '/' :: d) : a = c ∧ b = d := by
  induction a generalizing c with
  | nil =>
    cases c with
    | nil => simpa using h
    | cons y t =>
      simp only [List.nil_append, List.cons_append, List.cons.injEq] at h
      exact absurd (h.1 ▸ List.mem_cons_self y t) hc
  | cons x s ih =>
    cases c with
    | nil =>
      simp only [List.cons_append, List.nil_append, List.cons.injEq] at h
      exact absurd (h.1 ▸ List.mem_cons_self x s) ha
    | cons y t =>
      simp only [List.cons_append, List.cons.injEq] at h
      obtain ⟨rfl, h2⟩ := h
      have ha' : '/' ∉ s := fun hm => ha (List.mem_cons_of_mem _ hm)
      have hc' : '/' ∉ t := fun hm => hc (List.mem_cons_of_mem _ hm)
      obtain ⟨rfl, hbd⟩ := ih ha' hc' h2
      exact ⟨rfl, hbd⟩

/-- Over the two hard-coded enumerations, gluing a binary name to an extension
is injective: no binary name is a strict prefix of another up to an extension
boundary, checked by computation over all 400 pairs. -/
theorem enum_pair_inj : ∀ n1 ∈ engines, ∀ e1 ∈ extensions, ∀ n2 ∈ engines,
    ∀ e2 ∈ extensions, n1 ++ e1 = n2 ++ e2 → n1 = n2 ∧ e1 = e2 := by decide

/-- The triple nested loop of the verification phase enumerates exactly the
list cross-product of its three ranges. -/
theorem taskTuples_eq_product (l : List String) :
    (l.flatMap fun platform => engines.flatMap fun engine =>
      extensions.map fun extension => (platform, engine, extension))
      = l ×ˢ (engines ×ˢ extensions) := by
  induction l with
  | nil => rfl
  | cons p t ih =>
    rw [List.flatMap_cons, ih]
    rfl

/-- Each slot of the outcome array holds its own task's outcome after the
scheduler has run the tasks in any order: writes are keyed by dispatch index,
so the last write to a slot carries the same value as the first. -/
theorem fillSlots_eq (f : Nat → String × Bool) (sched : List Nat)
    (init : Nat → Option (String × Bool)) (j : Nat) :
    fillSlots f sched init j = if j ∈ sched then some (f j) else init j := by
  induction sched generalizing init with
  | nil => simp [fillSlots]
  | cons i rest ih =>
    simp only [fillSlots]
    rw [ih]
    by_cases hj : j ∈ rest
    · simp [hj, List.mem_cons]
    · by_cases hji : j = i
      · subst hji; simp [hj]
      · simp [hj, hji, List.mem_cons]

/-- Reading a list back through positional indexing in index order recovers a
plain map over the list. -/
theorem range_map_getD {α : Type} (tasks : List String) (g : String → α) :
    (List.range tasks.length).map (fun i => g (tasks.getD i "")) = tasks.map g := by
  induction tasks with
  | nil => rfl
  | cons t ts ih =>
    rw [List.length_cons, List.range_succ_eq_map, List.map_cons, List.map_map]
    refine congrArg₂ List.cons rfl ?_
    rw [← ih]
    rfl

/-! The claim theorems. -/

/-- Claim C2: for every ordered candidate list, the scanner probes the
candidates' reference artifacts sequentially in the order supplied, returns the
first commit whose reference-artifact probe succeeds, and never probes any
candidate after the returned one; every earlier candidate is probed (and fails)
before that conclusion is reached.  Stated for an arbitrary decomposition
`pre ++ c :: post` in which every candidate before `c` fails and `c` succeeds:
the result is `c` and the probed sequence is exactly `pre ++ [c]`. -/
theorem getFirstExistingCommit_probes_in_order
    (transport : String → Except TransportError JsResponse)
    (pre post : List String) (c : String)
    (hpre : ∀ c' ∈ pre, urlExists transport
      (getDownloadUrl "master" c' "darwin" "query-engine" referenceExtension) = false)
    (hc : urlExists transport
      (getDownloadUrl "master" c "darwin" "query-engine" referenceExtension) = true) :
    getFirstExistingCommit transport (pre ++ c :: post) = some c ∧
      scanProbed transport (pre ++ c :: post) = pre ++ [c] := by
  induction pre with
  | nil => simp [getFirstExistingCommit, scanProbed, hc]
  | cons a t ih =>
    have ha := hpre a (List.mem_cons_self a t)
    have ht : ∀ c' ∈ t, urlExists transport
        (getDownloadUrl "master" c' "darwin" "query-engine" referenceExtension) = false :=
      fun c' hmem => hpre c' (List.mem_cons_of_mem a hmem)
    obtain ⟨ih1, ih2⟩ := ih ht
    refine ⟨?_, ?_⟩
    · simpa [getFirstExistingCommit, ha] using ih1
    · simpa [scanProbed, ha] using ih2

/-- Witness for claim C2 at a concrete input: with `exampleTransport`, of the
candidates `c1, c2, c3` only `c2`'s reference artifact exists; the scan returns
`c2` and probes exactly `c1` then `c2`. -/
theorem getFirstExistingCommit_probes_in_order_witness :
    (∀ c' ∈ (["c1"] : List String), urlExists exampleTransport
      (getDownloadUrl "master" c' "darwin" "query-engine" referenceExtension) = false) ∧
    urlExists exampleTransport
      (getDownloadUrl "master" "c2" "darwin" "query-engine" referenceExtension) = true ∧
    (getFirstExistingCommit exampleTransport (["c1"] ++ "c2" :: ["c3"]) = some "c2" ∧
      scanProbed exampleTransport (["c1"] ++ "c2" :: ["c3"]) = ["c1"] ++ ["c2"]) :=
  ⟨by decide, by decide,
    getFirstExistingCommit_probes_in_order exampleTransport ["c1"] ["c3"] "c2"
      (by decide) (by decide)⟩

/-- Claim C3 (the code diverges from it): on a candidate list where no
candidate's reference artifact exists, the scanner does not fail with a fatal
`NoValidCommitFound` error — no such error exists anywhere in the code.  The
loop falls through with no return statement and the call resolves to JavaScript
`undefined` (modelled as `none`), contradicting both the spec's stated error
condition and the function's own declared return type `Promise<string>`. -/
theorem getFirstExistingCommit_exhausted_returns_none :
    getFirstExistingCommit (fun _ => Except.error TransportError.dnsFailure) ["c1", "c2"]
      = none := by decide

/-- Claim C4: for every received response, the probe evaluates to true iff the
content-length header parses (by JavaScript `parseInt`) to a positive integer
and the status code is strictly less than 300; the two conditions gate
independently, so a success status with zero or missing content-length yields
false, and a status of 300 or above with positive content-length yields
false. -/
theorem urlExists_contentLength_and_status_gate (res : JsResponse) :
    urlExistsResponse res = true ↔
      ((∃ n : Int, jsParseInt (fromEntries res.headers "content-length") = some n ∧ 0 < n) ∧
        res.status < 300) := by
  unfold urlExistsResponse
  cases h : jsParseInt (fromEntries res.headers "content-length") with
  | none => simp [jsGtZero, h]
  | some n =>
    by_cases hn : 0 < n
    · simp [jsGtZero, h, hn]
    · simp [jsGtZero, h, hn]

/-- Witness for claim C4 at a concrete response: a 200 response carrying ten
bytes. -/
theorem urlExists_contentLength_and_status_gate_witness :
    urlExistsResponse ⟨200, [("content-length", "10")]⟩ = true ↔
      ((∃ n : Int, jsParseInt (fromEntries [("content-length", "10")] "content-length")
          = some n ∧ 0 < n) ∧ 200 < 300) :=
  urlExists_contentLength_and_status_gate ⟨200, [("content-length", "10")]⟩

/-- Claim C5: for every URL and every transport behaviour — DNS failure,
connection refusal, timeout, or any thrown exception — `urlExists` never raises
to its caller: the `catch` absorbs the failure and the call returns false.  In
this embedding `urlExists` is a total boolean function, and every transport
error maps to the return value false. -/
theorem urlExists_transport_failure_returns_false
    (transport : String → Except TransportError JsResponse) (url : String)
    (e : TransportError) (h : transport url = Except.error e) :
    urlExists transport url = false := by
  unfold urlExists
  rw [h]

/-- Witness for claim C5 at a concrete input: a transport that times out on
every URL. -/
theorem urlExists_transport_failure_returns_false_witness :
    (fun _ : String => (Except.error TransportError.timeout : Except TransportError JsResponse))
        "https://example.com/x" = Except.error TransportError.timeout ∧
    urlExists (fun _ => Except.error TransportError.timeout) "https://example.com/x" = false :=
  ⟨rfl, urlExists_transport_failure_returns_false
    (fun _ => Except.error TransportError.timeout) "https://example.com/x"
    TransportError.timeout rfl⟩

/-- Claim C1: for every set of probe outcomes produced by the verification
phase, `getLatestTag` returns the resolved commit iff every outcome has
`exists = true`; otherwise it fails with an error whose payload enumerates the
download URL of every outcome with `exists = false` — the complete list
(membership-exact), not a count. -/
theorem getLatestTag_success_iff_all_exist (platforms : List String)
    (transport : String → Except TransportError JsResponse) (commits : List String) :
    (getLatestTag platforms transport commits
        = Except.ok (getFirstExistingCommit transport commits)
      ↔ ∀ o ∈ verificationOutcomes platforms transport
          (jsString (getFirstExistingCommit transport commits)), o.2 = true) ∧
    ((∃ o ∈ verificationOutcomes platforms transport
          (jsString (getFirstExistingCommit transport commits)), o.2 = false) →
      ∃ L : List String,
        getLatestTag platforms transport commits = Except.error (missingAssetsMessage L) ∧
        ∀ u, u ∈ L ↔ ∃ o ∈ verificationOutcomes platforms transport
          (jsString (getFirstExistingCommit transport commits)), o.1 = u ∧ o.2 = false) := by
  set E := verificationOutcomes platforms transport
    (jsString (getFirstExistingCommit transport commits)) with hE
  by_cases hM : E.filter (fun e => !e.2) = []
  · have hall : ∀ o ∈ E, o.2 = true := by
      intro o ho
      have := List.filter_eq_nil_iff.mp hM o ho
      simpa using this
    constructor
    · simp only [getLatestTag, ← hE, hM]
      simp only [List.length_nil, gt_iff_lt, Nat.lt_irrefl, if_false]
      simp only [reduceIte, true_iff]
      intro o ho
      exact hall o ho
    · intro ⟨o, ho, hfalse⟩
      exact absurd (hall o ho) (by simp [hfalse])
  · have hpos : (E.filter (fun e => !e.2)).length > 0 :=
      List.length_pos.mpr hM
    have herr : getLatestTag platforms transport commits
        = Except.error (missingAssetsMessage
            ((E.filter (fun e => !e.2)).map (fun m => m.1))) := by
      simp only [getLatestTag, ← hE]
      rw [if_pos hpos]
    constructor
    · rw [herr]
      simp only [false_iff, reduceCtorEq]
      intro hall
      obtain ⟨o, ho⟩ := List.exists_mem_of_ne_nil _ hM
      rw [List.mem_filter] at ho
      have := hall o ho.1
      simp [this] at ho
    · intro _
      refine ⟨(E.filter (fun e => !e.2)).map (fun m => m.1), herr, ?_⟩
      intro u
      simp [List.mem_map, List.mem_filter]

/-- Witness for claim C1 at a concrete input: one platform, a transport on
which every probe fails, an empty candidate list; the run fails with the
missing-assets error enumerating exactly the URLs of the failed outcomes. -/
theorem getLatestTag_success_iff_all_exist_witness :
    ∃ L : List String,
      getLatestTag ["p"] (fun _ => Except.error TransportError.dnsFailure) []
          = Except.error (missingAssetsMessage L) ∧
      ∀ u, u ∈ L ↔ ∃ o ∈ verificationOutcomes ["p"]
          (fun _ => Except.error TransportError.dnsFailure)
          (jsString (getFirstExistingCommit
            (fun _ => Except.error TransportError.dnsFailure) [])), o.1 = u ∧ o.2 = false :=
  (getLatestTag_success_iff_all_exist ["p"]
    (fun _ => Except.error TransportError.dnsFailure) []).2 (by decide)

/-- Claim C6: for every resolved commit the verification phase dispatches
exactly one probe per tuple in the cross-product (platforms minus the exclusion
set) × binaries × extensions — the task list has no duplicates, its length is
`|platforms − exclusions| × |binaries| × |extensions|`, and a tuple is a task
iff its platform is a supplied, non-excluded platform and its binary and
extension come from the two enumerations; in particular no asset reference for
an excluded platform is ever generated. -/
theorem taskTuples_excludes_and_counts (platforms : List String)
    (hnd : platforms.Nodup) :
    (taskTuples platforms).Nodup ∧
      (taskTuples platforms).length
        = (relevantPlatforms platforms).length * engines.length * extensions.length ∧
      ∀ p e x, ((p, e, x) ∈ taskTuples platforms ↔
        (p ∈ platforms ∧ p ∉ excludedPlatforms ∧ e ∈ engines ∧ x ∈ extensions)) := by
  have heq : taskTuples platforms = (relevantPlatforms platforms) ×ˢ (engines ×ˢ extensions) :=
    taskTuples_eq_product _
  have hrel : (relevantPlatforms platforms).Nodup := hnd.filter _
  refine ⟨?_, ?_, ?_⟩
  · rw [heq]
    exact hrel.product ((by decide : engines.Nodup).product (by decide : extensions.Nodup))
  · rw [heq, List.length_product, List.length_product, Nat.mul_assoc]
  · intro p e x
    rw [heq, List.mem_product, List.mem_product]
    unfold relevantPlatforms
    simp [List.mem_filter, and_assoc]

/-- Witness for claim C6 at a concrete input: of the two supplied platforms,
`freebsd` is excluded, so the task set covers only `darwin` — 1 × 4 × 5
tasks. -/
theorem taskTuples_excludes_and_counts_witness :
    (["darwin", "freebsd"] : List String).Nodup ∧
      ((taskTuples ["darwin", "freebsd"]).Nodup ∧
        (taskTuples ["darwin", "freebsd"]).length
          = (relevantPlatforms ["darwin", "freebsd"]).length * engines.length * extensions.length ∧
        ∀ p e x, ((p, e, x) ∈ taskTuples ["darwin", "freebsd"] ↔
          (p ∈ (["darwin", "freebsd"] : List String) ∧ p ∉ excludedPlatforms ∧
            e ∈ engines ∧ x ∈ extensions))) :=
  ⟨by decide, taskTuples_excludes_and_counts ["darwin", "freebsd"] (by decide)⟩

/-- Claim C8: the URL builder is deterministic and injective on valid tuples:
two calls agree exactly when their (branch, commit, platform, binary,
extension) tuples agree — the right-to-left direction is determinism of the
pure function, the left-to-right direction injectivity (no two distinct valid
tuples produce the same URL). -/
theorem getDownloadUrl_deterministic_and_injective
    (b1 c1 p1 n1 e1 b2 c2 p2 n2 e2 : String)
    (hv1 : validTuple b1 c1 p1 n1 e1) (hv2 : validTuple b2 c2 p2 n2 e2) :
    getDownloadUrl b1 c1 p1 n1 e1 = getDownloadUrl b2 c2 p2 n2 e2 ↔
      (b1, c1, p1, n1, e1) = (b2, c2, p2, n2, e2) := by
  constructor
  · intro h
    obtain ⟨hb1, hc1, hp1, hn1, he1⟩ := hv1
    obtain ⟨hb2, hc2, hp2, hn2, he2⟩ := hv2
    have h' := congrArg String.data h
    simp only [getDownloadUrl, String.data_append, List.append_assoc] at h'
    have h2 := List.append_cancel_left h'
    simp only [List.singleton_append] at h2
    simp only [List.cons.injEq, true_and] at h2
    obtain ⟨hb, h4⟩ := append_sep_inj hb1 hb2 h2
    obtain ⟨hc, h5⟩ := append_sep_inj hc1 hc2 h4
    obtain ⟨hp, h6⟩ := append_sep_inj hp1 hp2 h5
    have hne : n1 ++ e1 = n2 ++ e2 :=
      String.ext (by rw [String.data_append, String.data_append]; exact h6)
    obtain ⟨hn, he⟩ := enum_pair_inj n1 hn1 e1 he1 n2 hn2 e2 he2 hne
    simp only [Prod.mk.injEq]
    exact ⟨String.ext hb, String.ext hc, String.ext hp, hn, he⟩
  · intro h
    simp only [Prod.mk.injEq] at h
    obtain ⟨rfl, rfl, rfl, rfl, rfl⟩ := h
    rfl

/-- Witness for claim C8 at a concrete valid tuple. -/
theorem getDownloadUrl_deterministic_and_injective_witness :
    validTuple "master" "abc123" "darwin" "query-engine" ".gz" ∧
      (getDownloadUrl "master" "abc123" "darwin" "query-engine" ".gz"
          = getDownloadUrl "master" "abc123" "darwin" "query-engine" ".gz" ↔
        (("master" : String), ("abc123" : String), ("darwin" : String),
            ("query-engine" : String), (".gz" : String))
          = ("master", "abc123", "darwin", "query-engine", ".gz")) :=
  ⟨by decide, getDownloadUrl_deterministic_and_injective
    "master" "abc123" "darwin" "query-engine" ".gz"
    "master" "abc123" "darwin" "query-engine" ".gz" (by decide) (by decide)⟩

/-- Claim C9: when the candidate list is exhausted with no successful
reference-artifact probe, `getFirstExistingCommit` returns `none` (the JS loop
falls through, yielding `undefined`), and `getLatestTag` then proceeds into the
verification phase, building and probing every URL with the commit segment
rendered as the string "undefined", instead of stopping at the resolution
phase. -/
theorem getLatestTag_proceeds_with_undefined_commit (platforms : List String)
    (transport : String → Except TransportError JsResponse) (commits : List String)
    (h : ∀ c ∈ commits, urlExists transport
      (getDownloadUrl "master" c "darwin" "query-engine" referenceExtension) = false) :
    getFirstExistingCommit transport commits = none ∧
      getLatestTag platforms transport commits =
        (if (missingUrls (verificationOutcomes platforms transport "undefined")).length > 0
         then Except.error (missingAssetsMessage
          (missingUrls (verificationOutcomes platforms transport "undefined")))
         else Except.ok none) := by
  have h1 : getFirstExistingCommit transport commits = none := by
    induction commits with
    | nil => rfl
    | cons c rest ih =>
      have hc := h c (List.mem_cons_self c rest)
      have ih' := ih (fun c' hm => h c' (List.mem_cons_of_mem c hm))
      simpa [getFirstExistingCommit, hc] using ih'
  refine ⟨h1, ?_⟩
  simp only [getLatestTag, h1, jsString]
  unfold missingUrls
  rw [List.length_map]

/-- Witness for claim C9 at a concrete input: with a transport on which every
probe fails and one candidate, the run resolves no commit yet still produces
the verification-phase missing-assets outcome over "undefined" URLs. -/
theorem getLatestTag_proceeds_with_undefined_commit_witness :
    (∀ c ∈ (["c1"] : List String), urlExists (fun _ => Except.error TransportError.dnsFailure)
      (getDownloadUrl "master" c "darwin" "query-engine" referenceExtension) = false) ∧
    (getFirstExistingCommit (fun _ => Except.error TransportError.dnsFailure) ["c1"] = none ∧
      getLatestTag ["p"] (fun _ => Except.error TransportError.dnsFailure) ["c1"] =
        (if (missingUrls (verificationOutcomes ["p"]
              (fun _ => Except.error TransportError.dnsFailure) "undefined")).length > 0
         then Except.error (missingAssetsMessage
          (missingUrls (verificationOutcomes ["p"]
            (fun _ => Except.error TransportError.dnsFailure) "undefined")))
         else Except.ok none)) :=
  ⟨by decide, getLatestTag_proceeds_with_undefined_commit ["p"]
    (fun _ => Except.error TransportError.dnsFailure) ["c1"] (by decide)⟩

/-- Claim C10: the order of URLs in the missing-assets data is deterministic
and equal to the cross-product enumeration order (platform outer, binary
middle, extension inner), independent of the order in which the concurrent
probes complete, because each outcome is written into its own dispatch-order
slot and `Promise.all` reads the slots back in dispatch order: for every
completion schedule covering all task indices, the collected outcome array
equals the dispatch-order outcome list, and the missing-URL list equals the
dispatch-order filter of the task list. -/
theorem promiseAll_missing_order_schedule_independent (platforms : List String)
    (transport : String → Except TransportError JsResponse) (commit : String)
    (sched : List Nat)
    (hsched : ∀ i < (taskUrls platforms commit).length, i ∈ sched) :
    promiseAll (taskUrls platforms commit) transport sched
        = verificationOutcomes platforms transport commit ∧
      missingUrls (promiseAll (taskUrls platforms commit) transport sched)
        = (taskUrls platforms commit).filter (fun u => !urlExists transport u) := by
  set tasks := taskUrls platforms commit with htasks
  have h1 : promiseAll tasks transport sched
      = tasks.map (fun u => (u, urlExists transport u)) := by
    unfold promiseAll
    have hcg : ∀ i ∈ List.range tasks.length,
        ((fillSlots (slotOutcome tasks transport) sched fun _ => none) i).getD ("", false)
          = (fun i => (tasks.getD i "", urlExists transport (tasks.getD i ""))) i := by
      intro i hi
      rw [List.mem_range] at hi
      rw [fillSlots_eq]
      simp [hsched i hi, slotOutcome]
    rw [List.map_congr_left hcg]
    exact range_map_getD tasks (fun u => (u, urlExists transport u))
  constructor
  · exact h1
  · rw [h1]
    unfold missingUrls
    rw [List.filter_map, List.map_map]
    simp [Function.comp_def]

/-- Witness for claim C10 at a concrete input: a reversed completion schedule
over the 20 tasks of one platform still yields the dispatch-order outcome
array. -/
theorem promiseAll_missing_order_schedule_independent_witness :
    (∀ i < (taskUrls ["p"] "c").length, i ∈ (List.range 20).reverse) ∧
    (promiseAll (taskUrls ["p"] "c") (fun _ => Except.error TransportError.dnsFailure)
          (List.range 20).reverse
        = verificationOutcomes ["p"] (fun _ => Except.error TransportError.dnsFailure) "c" ∧
      missingUrls (promiseAll (taskUrls ["p"] "c")
          (fun _ => Except.error TransportError.dnsFailure) (List.range 20).reverse)
        = (taskUrls ["p"] "c").filter
            (fun u => !urlExists (fun _ => Except.error TransportError.dnsFailure) u)) :=
  ⟨by decide, promiseAll_missing_order_schedule_independent ["p"]
    (fun _ => Except.error TransportError.dnsFailure) "c" (List.range 20).reverse (by decide)⟩
